import Mathlib

/-!
Verification of the multi-endpoint Ethereum RPC routing layer
(`graph/src/components/ethereum/network.rs`): capability model,
endpoint pool selection, retry configuration and the network registry.

Shallow embedding conventions:
* `NodeCapabilities` mirrors the Rust struct of the same name.
* Endpoint handles (`Arc<dyn EthereumAdapter>`) are opaque to this module;
  they are modelled as a `Nat` identity.
* Rust `Ordering` is modelled by Lean's `Ordering`; Rust `bool` ordering
  (`false < true`) by `boolCmp`.
* Fallible operations return `Except`.
-/

/-- Capability flags of one Ethereum endpoint
(`pub struct NodeCapabilities { archive: bool, traces: bool }`). -/
structure NodeCapabilities where
  archive : Bool
  traces : Bool
deriving DecidableEq, Repr

/-- Rust `Ord` on `bool`: `false < true`. -/
def boolCmp (a b : Bool) : Ordering :=
  match a, b with
  | false, false => Ordering.eq
  | false, true => Ordering.lt
  | true, false => Ordering.gt
  | true, true => Ordering.eq

/-- `impl Ord for NodeCapabilities`: the match over the componentwise
comparisons, arm for arm as in the source (first matching arm wins,
as in Rust). -/
def NodeCapabilities.cmp (a b : NodeCapabilities) : Ordering :=
  match boolCmp a.archive b.archive, boolCmp a.traces b.traces with
  | Ordering.gt, Ordering.gt => Ordering.gt
  | Ordering.gt, Ordering.eq => Ordering.gt
  | Ordering.eq, Ordering.gt => Ordering.gt
  | Ordering.eq, Ordering.eq => Ordering.eq
  | Ordering.lt, _ => Ordering.lt
  | _, Ordering.lt => Ordering.lt

/-- The derived `>=` of `impl PartialOrd for NodeCapabilities`
(`partial_cmp` is `Some (cmp ..)`, so `a >= b` holds iff `cmp`
returns `Greater` or `Equal`). -/
def NodeCapabilities.ge (a b : NodeCapabilities) : Bool :=
  match NodeCapabilities.cmp a b with
  | Ordering.gt => true
  | Ordering.eq => true
  | Ordering.lt => false

/-- The dominance predicate in the spec's words:
`dominates(a,b) == (a.archive || !b.archive) && (a.traces || !b.traces)`.
Stated separately from `NodeCapabilities.ge` (which is translated from the
source) so the two can be compared. -/
def dominatesSpec (a b : NodeCapabilities) : Bool :=
  (a.archive || !b.archive) && (a.traces || !b.traces)

/-- `impl FromStr for NodeCapabilities`, on the character list of the
input: split on `,`, then `archive`/`traces` hold iff the exact token
occurs in the list.  The Rust function always returns `Ok`, so the
embedding is total. -/
def splitComma : List Char → List (List Char)
  | [] => [[]]
  | c :: rest =>
    match splitComma rest with
    | [] => [[c]]
    | t :: ts => if c = ',' then [] :: t :: ts else (c :: t) :: ts

/-- `NodeCapabilities::from_str`. -/
def NodeCapabilities.fromStr (s : String) : NodeCapabilities :=
  let capabilities := splitComma s.data
  { archive := capabilities.any (fun t => t = "archive".data)
    traces := capabilities.any (fun t => t = "traces".data) }

/-- `impl fmt::Display for NodeCapabilities`: the four canonical strings. -/
def NodeCapabilities.display : NodeCapabilities → String
  | ⟨true, true⟩ => "archive, trace"
  | ⟨false, true⟩ => "full, trace"
  | ⟨false, false⟩ => "full"
  | ⟨true, false⟩ => "archive"

lemma ge_eq_dominatesSpec (a b : NodeCapabilities) :
    NodeCapabilities.ge a b = dominatesSpec a b := by
  obtain ⟨a1, a2⟩ := a
  obtain ⟨b1, b2⟩ := b
  cases a1 <;> cases a2 <;> cases b1 <;> cases b2 <;> rfl

/-- C1: the derived `>=` on `NodeCapabilities` agrees with the boolean
dominance formula `(a.archive || !b.archive) && (a.traces || !b.traces)`
on every pair; it is reflexive, `{archive:true,traces:true}` dominates
every value, and every value dominates `{archive:false,traces:false}`. -/
theorem ge_is_dominance :
    (∀ a b : NodeCapabilities,
      NodeCapabilities.ge a b = ((a.archive || !b.archive) && (a.traces || !b.traces))) ∧
    (∀ a : NodeCapabilities, NodeCapabilities.ge a a = true) ∧
    (∀ b : NodeCapabilities, NodeCapabilities.ge ⟨true, true⟩ b = true) ∧
    (∀ a : NodeCapabilities, NodeCapabilities.ge a ⟨false, false⟩ = true) := by
  refine ⟨fun a b => ge_eq_dominatesSpec a b, ?_, ?_, ?_⟩
  · intro ⟨a1, a2⟩
    cases a1 <;> cases a2 <;> rfl
  · intro ⟨b1, b2⟩
    cases b1 <;> cases b2 <;> rfl
  · intro ⟨a1, a2⟩
    cases a1 <;> cases a2 <;> rfl

/-- C2: on every mutually non-dominating pair the ordering reports each
side as less than the other, so both derived `>=` comparisons are false. -/
theorem cmp_incomparable_both_lt :
    ∀ a b : NodeCapabilities, dominatesSpec a b = false → dominatesSpec b a = false →
      NodeCapabilities.cmp a b = Ordering.lt ∧ NodeCapabilities.cmp b a = Ordering.lt ∧
      NodeCapabilities.ge a b = false ∧ NodeCapabilities.ge b a = false := by
  intro a b
  obtain ⟨a1, a2⟩ := a
  obtain ⟨b1, b2⟩ := b
  cases a1 <;> cases a2 <;> cases b1 <;> cases b2 <;> decide

theorem cmp_incomparable_both_lt_witness :
    NodeCapabilities.cmp ⟨true, false⟩ ⟨false, true⟩ = Ordering.lt ∧
    NodeCapabilities.cmp ⟨false, true⟩ ⟨true, false⟩ = Ordering.lt ∧
    NodeCapabilities.ge ⟨true, false⟩ ⟨false, true⟩ = false ∧
    NodeCapabilities.ge ⟨false, true⟩ ⟨true, false⟩ = false :=
  cmp_incomparable_both_lt ⟨true, false⟩ ⟨false, true⟩ (by decide) (by decide)

/-- C10 counterexample: displaying `{archive:false,traces:true}` gives
`"full, trace"`, which the parser (splitting on `,` and looking for the
exact tokens `archive`/`traces`) reads back as `{archive:false,traces:false}`,
not the original value. -/
theorem display_fromStr_no_roundtrip :
    NodeCapabilities.fromStr (NodeCapabilities.display ⟨false, true⟩) = ⟨false, false⟩ ∧
    (⟨false, false⟩ : NodeCapabilities) ≠ ⟨false, true⟩ := by
  constructor
  · decide
  · decide

/-- C10 amended: parsing the display string always recovers the `archive`
flag but never the `traces` flag (the display writes `" trace"`, which the
parser does not recognize), so the round-trip holds exactly for the two
values with `traces = false`. -/
theorem display_fromStr_roundtrip_iff :
    ∀ x : NodeCapabilities,
      NodeCapabilities.fromStr (NodeCapabilities.display x) = ⟨x.archive, false⟩ ∧
      (NodeCapabilities.fromStr (NodeCapabilities.display x) = x ↔ x.traces = false) := by
  intro ⟨a, t⟩
  cases a <;> cases t <;> exact ⟨by decide, by decide⟩

/-- One pool entry (`pub struct EthereumNetworkAdapter`): a capability set
paired with an endpoint handle.  The handle (`Arc<dyn EthereumAdapter>`) is
opaque to this module, so it is modelled by a `Nat` identity. -/
structure EthereumNetworkAdapter where
  capabilities : NodeCapabilities
  adapter : Nat
deriving DecidableEq, Repr

/-- Error kinds produced by pool selection and registry lookup
(the source builds these with `format_err!`; we keep them structured). -/
inductive NetError
  | networkNotSupported (name : String)
  | noEligibleEndpoint (required : NodeCapabilities)
deriving DecidableEq, Repr

/-- `EthereumNetworkAdapters::sufficient_adapters`: filter the pool down to
the entries whose capability satisfies `>= required`, error if none remain
(the source's emptiness test is rendered as a match on the filtered list). -/
def sufficientAdapters (pool : List EthereumNetworkAdapter)
    (required : NodeCapabilities) : Except NetError (List EthereumNetworkAdapter) :=
  match pool.filter (fun a => NodeCapabilities.ge a.capabilities required) with
  | [] => Except.error (NetError.noEligibleEndpoint required)
  | a :: rest => Except.ok (a :: rest)

/-- `EthereumNetworkAdapters::cheapest_with`: filter the pool by `>= required`,
error if no entry qualifies, otherwise return the `adapter` field of an
eligible entry chosen at random.  The process-wide random source is modelled
by the explicit `rng : Nat`, reduced modulo the number of eligible entries
(`IteratorRandom::choose` picks one element of the filtered collection;
its `unwrap` is safe because the collection was just checked nonempty). -/
def cheapestWith (rng : Nat) (pool : List EthereumNetworkAdapter)
    (required : NodeCapabilities) : Except NetError Nat :=
  match pool.filter (fun a => NodeCapabilities.ge a.capabilities required) with
  | [] => Except.error (NetError.noEligibleEndpoint required)
  | a :: rest =>
      Except.ok (((a :: rest).get
        ⟨rng % (a :: rest).length, Nat.mod_lt rng (Nat.succ_pos rest.length)⟩).adapter)

lemma filter_ge_eq_filter_dominates (pool : List EthereumNetworkAdapter)
    (req : NodeCapabilities) :
    pool.filter (fun a => NodeCapabilities.ge a.capabilities req) =
      pool.filter (fun a => dominatesSpec a.capabilities req) := by
  induction pool with
  | nil => rfl
  | cons e rest ih => simp [List.filter, ge_eq_dominatesSpec, ih]

/-- C3: `sufficient_adapters` returns exactly the order-preserving
subsequence of pool entries whose capability dominates the requirement, and
fails with `noEligibleEndpoint` iff that subsequence is empty; on the pool
`[{false,false},{true,false},{false,true},{true,true}]` with requirement
`{false,true}` it returns exactly `[{false,true},{true,true}]`. -/
theorem sufficientAdapters_spec :
    ∀ (pool : List EthereumNetworkAdapter) (req : NodeCapabilities),
      (∀ l, sufficientAdapters pool req = Except.ok l →
        l = pool.filter (fun e => dominatesSpec e.capabilities req) ∧ l.Sublist pool) ∧
      (sufficientAdapters pool req = Except.error (NetError.noEligibleEndpoint req) ↔
        pool.filter (fun e => dominatesSpec e.capabilities req) = []) ∧
      sufficientAdapters
          [⟨⟨false, false⟩, 0⟩, ⟨⟨true, false⟩, 1⟩, ⟨⟨false, true⟩, 2⟩, ⟨⟨true, true⟩, 3⟩]
          ⟨false, true⟩ =
        Except.ok [⟨⟨false, true⟩, 2⟩, ⟨⟨true, true⟩, 3⟩] := by
  intro pool req
  refine ⟨?_, ?_, rfl⟩
  · intro l hl
    unfold sufficientAdapters at hl
    rcases hf : pool.filter (fun a => NodeCapabilities.ge a.capabilities req) with
      _ | ⟨a, rest⟩
    · rw [hf] at hl
      simp at hl
    · rw [hf] at hl
      injection hl with hl
      subst hl
      constructor
      · rw [← filter_ge_eq_filter_dominates]
        exact hf.symm
      · rw [← hf]
        exact List.filter_sublist pool
  · unfold sufficientAdapters
    rw [← filter_ge_eq_filter_dominates pool req]
    rcases hf : pool.filter (fun a => NodeCapabilities.ge a.capabilities req) with
      _ | ⟨a, rest⟩
    · rw [hf]
      simp
    · rw [hf]
      simp

theorem sufficientAdapters_spec_witness :
    ([⟨⟨false, true⟩, 2⟩, ⟨⟨true, true⟩, 3⟩] : List EthereumNetworkAdapter) =
      List.filter (fun e => dominatesSpec e.capabilities ⟨false, true⟩)
        [⟨⟨false, false⟩, 0⟩, ⟨⟨true, false⟩, 1⟩, ⟨⟨false, true⟩, 2⟩, ⟨⟨true, true⟩, 3⟩] ∧
    List.Sublist ([⟨⟨false, true⟩, 2⟩, ⟨⟨true, true⟩, 3⟩] : List EthereumNetworkAdapter)
      [⟨⟨false, false⟩, 0⟩, ⟨⟨true, false⟩, 1⟩, ⟨⟨false, true⟩, 2⟩, ⟨⟨true, true⟩, 3⟩] :=
  (sufficientAdapters_spec
      [⟨⟨false, false⟩, 0⟩, ⟨⟨true, false⟩, 1⟩, ⟨⟨false, true⟩, 2⟩, ⟨⟨true, true⟩, 3⟩]
      ⟨false, true⟩).1
    [⟨⟨false, true⟩, 2⟩, ⟨⟨true, true⟩, 3⟩] rfl

/-- C9: whatever the state of the random source, a successful
`cheapest_with` returns the adapter of some pool entry whose capability
dominates the requirement, and it fails with `noEligibleEndpoint` iff no
pool entry dominates the requirement. -/
theorem cheapestWith_spec :
    ∀ (rng : Nat) (pool : List EthereumNetworkAdapter) (req : NodeCapabilities),
      (∀ x, cheapestWith rng pool req = Except.ok x →
        ∃ e, e ∈ pool ∧ dominatesSpec e.capabilities req = true ∧ x = e.adapter) ∧
      (cheapestWith rng pool req = Except.error (NetError.noEligibleEndpoint req) ↔
        pool.filter (fun e => dominatesSpec e.capabilities req) = []) := by
  intro rng pool req
  constructor
  · intro x hx
    unfold cheapestWith at hx
    rcases hf : pool.filter (fun a => NodeCapabilities.ge a.capabilities req) with
      _ | ⟨a, rest⟩
    · rw [hf] at hx
      simp at hx
    · rw [hf] at hx
      injection hx with hx
      have hmem : (a :: rest).get
          ⟨rng % (a :: rest).length, Nat.mod_lt rng (Nat.succ_pos rest.length)⟩ ∈
            pool.filter (fun e => dominatesSpec e.capabilities req) := by
        rw [← filter_ge_eq_filter_dominates pool req, hf]
        exact List.get_mem _ _ _
      have hm2 := List.mem_filter.mp hmem
      exact ⟨_, hm2.1, hm2.2, hx.symm⟩
  · unfold cheapestWith
    rw [← filter_ge_eq_filter_dominates pool req]
    rcases hf : pool.filter (fun a => NodeCapabilities.ge a.capabilities req) with
      _ | ⟨a, rest⟩
    · rw [hf]
      simp
    · rw [hf]
      simp

theorem cheapestWith_spec_witness :
    ∃ e, e ∈ ([⟨⟨false, false⟩, 0⟩, ⟨⟨true, true⟩, 7⟩] : List EthereumNetworkAdapter) ∧
      dominatesSpec e.capabilities ⟨false, true⟩ = true ∧ 7 = e.adapter :=
  (cheapestWith_spec 5 [⟨⟨false, false⟩, 0⟩, ⟨⟨true, true⟩, 7⟩] ⟨false, true⟩).1 7 rfl

/-- The network registry (`pub struct EthereumNetworks`): a map from network
name to its adapter pool.  The `HashMap<String, EthereumNetworkAdapters>` is
modelled as an association list with unique keys; `insertNet` is
`HashMap::insert` (replace the value when the key is present, append
otherwise). -/
def insertNet : List (String × List EthereumNetworkAdapter) → String →
    List EthereumNetworkAdapter → List (String × List EthereumNetworkAdapter)
  | [], k, v => [(k, v)]
  | kv :: rest, k, v =>
      if kv.1 = k then (k, v) :: rest else kv :: insertNet rest k v

/-- `HashMap::get` on the association-list model. -/
def lookupNet : List (String × List EthereumNetworkAdapter) → String →
    Option (List EthereumNetworkAdapter)
  | [], _ => none
  | kv :: rest, k => if kv.1 = k then some kv.2 else lookupNet rest k

structure EthereumNetworks where
  networks : List (String × List EthereumNetworkAdapter)
deriving DecidableEq

/-- `EthereumNetworks::extend`: `self.networks.extend(other.networks)` —
every (name, pool) pair of the incoming registry is inserted into the
receiver, replacing any existing pool under the same name. -/
def extendNets (a b : EthereumNetworks) : EthereumNetworks :=
  ⟨b.networks.foldl (fun acc kv => insertNet acc kv.1 kv.2) a.networks⟩

lemma lookupNet_insertNet_self
    (m : List (String × List EthereumNetworkAdapter)) (k : String)
    (v : List EthereumNetworkAdapter) :
    lookupNet (insertNet m k v) k = some v := by
  induction m with
  | nil => simp [insertNet, lookupNet]
  | cons kv rest ih =>
      by_cases h : kv.1 = k
      · simp [insertNet, lookupNet, h]
      · simp [insertNet, lookupNet, h, ih]

lemma lookupNet_insertNet_ne
    (m : List (String × List EthereumNetworkAdapter)) (k1 k : String)
    (v : List EthereumNetworkAdapter) (hne : k1 ≠ k) :
    lookupNet (insertNet m k1 v) k = lookupNet m k := by
  induction m with
  | nil => simp [insertNet, lookupNet, hne]
  | cons kv rest ih =>
      by_cases h : kv.1 = k1
      · subst h
        simp [insertNet, lookupNet, hne]
      · simp [insertNet, h, lookupNet, ih]

lemma lookupNet_foldl_of_not_mem
    (l : List (String × List EthereumNetworkAdapter))
    (acc : List (String × List EthereumNetworkAdapter)) (k : String)
    (h : ∀ kv ∈ l, kv.1 ≠ k) :
    lookupNet (l.foldl (fun acc kv => insertNet acc kv.1 kv.2) acc) k =
      lookupNet acc k := by
  induction l generalizing acc with
  | nil => rfl
  | cons kv rest ih =>
      have hkv : kv.1 ≠ k := h kv (List.mem_cons_self kv rest)
      have hrest : ∀ kv2 ∈ rest, kv2.1 ≠ k :=
        fun kv2 hm => h kv2 (List.mem_cons_of_mem kv hm)
      calc lookupNet ((kv :: rest).foldl (fun acc kv => insertNet acc kv.1 kv.2) acc) k
          = lookupNet (rest.foldl (fun acc kv => insertNet acc kv.1 kv.2)
              (insertNet acc kv.1 kv.2)) k := rfl
        _ = lookupNet (insertNet acc kv.1 kv.2) k := ih _ hrest
        _ = lookupNet acc k := lookupNet_insertNet_ne acc kv.1 k kv.2 hkv

lemma lookupNet_foldl_of_lookup_some
    (l : List (String × List EthereumNetworkAdapter))
    (acc : List (String × List EthereumNetworkAdapter)) (k : String)
    (p : List EthereumNetworkAdapter)
    (hnd : (l.map Prod.fst).Nodup) (hl : lookupNet l k = some p) :
    lookupNet (l.foldl (fun acc kv => insertNet acc kv.1 kv.2) acc) k = some p := by
  induction l generalizing acc with
  | nil => simp [lookupNet] at hl
  | cons kv rest ih =>
      rw [List.map_cons, List.nodup_cons] at hnd
      by_cases h : kv.1 = k
      · have hp : kv.2 = p := by
          rw [lookupNet, if_pos h] at hl
          injection hl
        subst hp
        subst h
        have hrest : ∀ kv2 ∈ rest, kv2.1 ≠ kv.1 := by
          intro kv2 hm heq
          exact hnd.1 (heq ▸ List.mem_map_of_mem Prod.fst hm)
        calc lookupNet ((kv :: rest).foldl (fun acc kv => insertNet acc kv.1 kv.2) acc) kv.1
            = lookupNet (rest.foldl (fun acc kv => insertNet acc kv.1 kv.2)
                (insertNet acc kv.1 kv.2)) kv.1 := rfl
          _ = lookupNet (insertNet acc kv.1 kv.2) kv.1 :=
              lookupNet_foldl_of_not_mem rest _ kv.1 hrest
          _ = some kv.2 := lookupNet_insertNet_self acc kv.1 kv.2
      · rw [lookupNet, if_neg h] at hl
        exact ih _ hnd.2 hl

lemma lookupNet_foldl_of_lookup_none
    (l : List (String × List EthereumNetworkAdapter))
    (acc : List (String × List EthereumNetworkAdapter)) (k : String)
    (hl : lookupNet l k = none) :
    lookupNet (l.foldl (fun acc kv => insertNet acc kv.1 kv.2) acc) k =
      lookupNet acc k := by
  induction l generalizing acc with
  | nil => rfl
  | cons kv rest ih =>
      by_cases h : kv.1 = k
      · rw [lookupNet, if_pos h] at hl
        exact absurd hl (by simp)
      · rw [lookupNet, if_neg h] at hl
        calc lookupNet ((kv :: rest).foldl (fun acc kv => insertNet acc kv.1 kv.2) acc) k
            = lookupNet (rest.foldl (fun acc kv => insertNet acc kv.1 kv.2)
                (insertNet acc kv.1 kv.2)) k := rfl
          _ = lookupNet (insertNet acc kv.1 kv.2) k := ih _ hl
          _ = lookupNet acc k := lookupNet_insertNet_ne acc kv.1 k kv.2 h

/-- C4: after `A.extend(B)` (whose incoming map, coming from a `HashMap`,
has pairwise distinct keys), a name present in `B` maps to exactly `B`'s
pool — replacement, not union — and a name absent from `B` keeps whatever
pool (if any) it had in `A`. -/
theorem extend_replaces_pools :
    ∀ (a b : EthereumNetworks) (name : String),
      (b.networks.map Prod.fst).Nodup →
      (∀ p, lookupNet b.networks name = some p →
        lookupNet (extendNets a b).networks name = some p) ∧
      (lookupNet b.networks name = none →
        lookupNet (extendNets a b).networks name = lookupNet a.networks name) := by
  intro a b name hnd
  constructor
  · intro p hp
    exact lookupNet_foldl_of_lookup_some b.networks a.networks name p hnd hp
  · intro hp
    exact lookupNet_foldl_of_lookup_none b.networks a.networks name hp

theorem extend_replaces_pools_witness :
    lookupNet (extendNets
        ⟨[("mainnet", [⟨⟨true, false⟩, 1⟩, ⟨⟨false, true⟩, 2⟩])]⟩
        ⟨[("mainnet", [⟨⟨true, true⟩, 9⟩])]⟩).networks "mainnet" =
      some [⟨⟨true, true⟩, 9⟩] :=
  (extend_replaces_pools
      ⟨[("mainnet", [⟨⟨true, false⟩, 1⟩, ⟨⟨false, true⟩, 2⟩])]⟩
      ⟨[("mainnet", [⟨⟨true, true⟩, 9⟩])]⟩ "mainnet" (by simp)).1
    [⟨⟨true, true⟩, 9⟩] rfl

/-- The forwarded remote operations that `impl EthereumAdapter for
EthereumNetworkAdapters` actually implements (the two ranged streaming
operations, `logs_in_block_range` and `calls_in_block_range`, are
`unimplemented!` stubs and therefore absent). -/
inductive Op
  | netIdentifiers
  | latestBlockHeader
  | latestBlock
  | loadBlock
  | blockByHash
  | blockByNumber
  | loadFullBlock
  | blockPointerFromNumber
  | blockHashByBlockNumber
  | uncles
  | isOnMainChain
  | callsInBlock
  | contractCall
  | loadBlocks
  | blockRangeToPtrs
deriving DecidableEq, Repr

/-- The configuration each operation hands to the `retry` helper:
the diagnostic label, `.limit(..)` and `.timeout_secs(..)`. -/
structure RetryConfig where
  label : String
  limit : Nat
  timeoutSecs : Nat
deriving DecidableEq, Repr

/-- The `retry(label, &logger).limit(adapters.len()).timeout_secs(20)`
builder call of each operation, arm for arm from the source. -/
def retryConfig : Op → List EthereumNetworkAdapter → RetryConfig
  | Op.netIdentifiers, adapters =>
      ⟨"NetworkAdapters: net_version RPC call", adapters.length, 20⟩
  | Op.latestBlockHeader, adapters =>
      ⟨"NetworkAdapters: eth_getBlockByNumber(latest) no txs RPC call", adapters.length, 20⟩
  | Op.latestBlock, adapters =>
      ⟨"NetworkAdapters: eth_getBlockByNumber(latest) with txs RPC call", adapters.length, 20⟩
  | Op.loadBlock, adapters =>
      ⟨"NetworkAdapters: eth_getBlockByNumber(latest) with txs RPC call", adapters.length, 20⟩
  | Op.blockByHash, adapters =>
      ⟨"NetworkAdapters: eth_getBlockByNumber(latest) with txs RPC call", adapters.length, 20⟩
  | Op.blockByNumber, adapters =>
      ⟨"NetworkAdapters: eth_getBlockByNumber(latest) with txs RPC call", adapters.length, 20⟩
  | Op.loadFullBlock, adapters =>
      ⟨"NetworkAdapters: batch eth_getTransactionReceipt RPC call", adapters.length, 20⟩
  | Op.blockPointerFromNumber, adapters =>
      ⟨"NetworkAdapters: block pointer from number", adapters.length, 20⟩
  | Op.blockHashByBlockNumber, adapters =>
      ⟨"NetworkAdapters: block hash by block number", adapters.length, 20⟩
  | Op.uncles, adapters =>
      ⟨"NetworkAdapters: eth_getUncleByBlockHashAndIndex RPC call", adapters.length, 20⟩
  | Op.isOnMainChain, adapters =>
      ⟨"NetworkAdapters: is on main chain", adapters.length, 20⟩
  | Op.callsInBlock, adapters =>
      ⟨"NetworkAdapters: calls in block", adapters.length, 20⟩
  | Op.contractCall, adapters =>
      ⟨"NetworkAdapters: contract call", adapters.length, 20⟩
  | Op.loadBlocks, adapters =>
      ⟨"NetworkAdapters: load blocks", adapters.length, 20⟩
  | Op.blockRangeToPtrs, adapters =>
      ⟨"NetworkAdapters: block range to ptrs", adapters.length, 20⟩

/-- C8: every implemented forwarded operation configures the retry executor
with an attempt limit exactly equal to the pool size and a per-attempt
timeout of 20 seconds. -/
theorem retryConfig_limit_and_timeout :
    ∀ (op : Op) (pool : List EthereumNetworkAdapter),
      (retryConfig op pool).limit = pool.length ∧
      (retryConfig op pool).timeoutSecs = 20 := by
  intro op pool
  cases op <;> exact ⟨rfl, rfl⟩

/-- The error the `retry` helper hands back:
`TimeoutError<E>` is either the inner error of the last attempt or the
elapsed-timeout variant, which carries no further information
(`into_inner` returns `None` on it, as the call sites show). -/
inductive TimeoutErr
  | inner (msg : String)
  | elapsed
deriving DecidableEq, Repr

/-- `TimeoutError::into_inner`. -/
def intoInner : TimeoutErr → Option String
  | TimeoutErr.inner m => some m
  | TimeoutErr.elapsed => none

/-- The error finally surfaced to the caller of a forwarded operation. -/
inductive FinalError
  | passThrough (msg : String)
  | aggregate (msg : String)
  | genericTimeout
  | raw (e : TimeoutErr)
deriving DecidableEq, Repr

/-- The `map_err(|e| e.into_inner().unwrap_or_else(|| format_err!(..)))`
pattern: surface the inner error verbatim, otherwise synthesize the
operation-specific aggregate message. -/
def mapErrOr (aggregateMsg : String) (e : TimeoutErr) : FinalError :=
  match intoInner e with
  | some m => FinalError.passThrough m
  | none => FinalError.aggregate aggregateMsg

/-- Modelled from the spec: the `from_err()` conversion applied by the
operations without an explicit `map_err` lives outside this module (the
generic `From` instance for the timeout error).  Per the spec's error
taxonomy, a non-timeout error passes through verbatim; the elapsed-timeout
variant carries no operation information (its `into_inner` is `None`, as
visible at the call sites), so the single generic conversion cannot name
the operation and is modelled as a fixed `genericTimeout` error. -/
def fromErrConv (e : TimeoutErr) : FinalError :=
  match intoInner e with
  | some m => FinalError.passThrough m
  | none => FinalError.genericTimeout

/-- How each implemented operation turns the retry executor's error into
the error it returns, operation for operation from the source: four
operations use the aggregate `map_err` pattern with their own message,
most others call `from_err()`, and `contract_call`, `load_blocks` and
`block_range_to_ptrs` return the retry error unconverted. -/
def opTimeoutHandling : Op → TimeoutErr → FinalError
  | Op.netIdentifiers, e => fromErrConv e
  | Op.latestBlockHeader, e =>
      mapErrOr "All compatible Ethereum nodes took too long to return latest block header" e
  | Op.latestBlock, e =>
      mapErrOr "All compatible Ethereum nodes took too long to return latest block" e
  | Op.loadBlock, e => fromErrConv e
  | Op.blockByHash, e => fromErrConv e
  | Op.blockByNumber, e => fromErrConv e
  | Op.loadFullBlock, e =>
      mapErrOr "All compatible Ethereum nodes took too long to load full block" e
  | Op.blockPointerFromNumber, e =>
      mapErrOr "All compatible Ethereum nodes took too long to return block pointer from number" e
  | Op.blockHashByBlockNumber, e => fromErrConv e
  | Op.uncles, e => fromErrConv e
  | Op.isOnMainChain, e => fromErrConv e
  | Op.callsInBlock, e => fromErrConv e
  | Op.contractCall, e => FinalError.raw e
  | Op.loadBlocks, e => FinalError.raw e
  | Op.blockRangeToPtrs, e => FinalError.raw e

/-- Recognizer for the synthesized aggregate error. -/
def FinalError.isSynthesizedAggregate : FinalError → Bool
  | FinalError.aggregate _ => true
  | _ => false

/-- C5 counterexample: `load_block`, on all-timeout exhaustion, surfaces
the generic timeout conversion, not a synthesized aggregate error
describing the operation. -/
theorem loadBlock_timeout_not_aggregate :
    opTimeoutHandling Op.loadBlock TimeoutErr.elapsed = FinalError.genericTimeout ∧
    (opTimeoutHandling Op.loadBlock TimeoutErr.elapsed).isSynthesizedAggregate = false := by
  constructor
  · rfl
  · rfl

/-- C5 amended: exactly four of the implemented forwarded operations —
`latest_block_header`, `latest_block`, `load_full_block` and
`block_pointer_from_number` — synthesize the aggregate all-endpoints-timed-out
error, each with its operation-specific message; every other operation
surfaces the exhausted timeout without the synthesized aggregate. -/
theorem aggregate_timeout_only_four_ops :
    (∀ op : Op,
      (opTimeoutHandling op TimeoutErr.elapsed).isSynthesizedAggregate = true ↔
        (op = Op.latestBlockHeader ∨ op = Op.latestBlock ∨
         op = Op.loadFullBlock ∨ op = Op.blockPointerFromNumber)) ∧
    opTimeoutHandling Op.latestBlockHeader TimeoutErr.elapsed =
      FinalError.aggregate
        "All compatible Ethereum nodes took too long to return latest block header" ∧
    opTimeoutHandling Op.latestBlock TimeoutErr.elapsed =
      FinalError.aggregate
        "All compatible Ethereum nodes took too long to return latest block" ∧
    opTimeoutHandling Op.loadFullBlock TimeoutErr.elapsed =
      FinalError.aggregate
        "All compatible Ethereum nodes took too long to load full block" ∧
    opTimeoutHandling Op.blockPointerFromNumber TimeoutErr.elapsed =
      FinalError.aggregate
        "All compatible Ethereum nodes took too long to return block pointer from number" := by
  refine ⟨?_, rfl, rfl, rfl, rfl⟩
  intro op
  cases op <;> simp [opTimeoutHandling, mapErrOr, fromErrConv, intoInner,
    FinalError.isSynthesizedAggregate]

/-- Outcome of one attempt of a forwarded remote operation. -/
inductive AttemptResult (α : Type)
  | ok (a : α)
  | err (msg : String)
  | timedOut
deriving DecidableEq, Repr

/-- Overall outcome of running an operation through the retry executor.
`panicked` models a Rust panic (an `unwrap` of `None`). -/
inductive RunOutcome (α : Type)
  | ok (a : α)
  | failed (e : TimeoutErr)
  | panicked
deriving DecidableEq, Repr

/-- The per-attempt closure every implemented operation passes to the
executor: `adapters.iter().next().unwrap().adapter` — always the first
pool entry.  `Option::unwrap` of `None` (an empty pool) is a panic, so the
selection is kept as an `Option`. -/
def firstAdapterSelection (adapters : List EthereumNetworkAdapter) :
    Option EthereumNetworkAdapter :=
  adapters.head?

/-- Modelled from the spec: the retry/failover executor itself (the `retry`
helper) lives outside this module.  Following the spec, attempts are
sequential; the executor performs the first attempt and retries while
attempts remain, up to the attempt limit; a success returns immediately;
on exhaustion the final timeout becomes the elapsed variant and a final
non-timeout error passes through as the inner variant.  Each attempt runs
the operation closure, which selects via `firstAdapterSelection`; the
attempt behaviour of the (external) endpoint is an oracle `behave` indexed
by attempt number and selected entry.  The returned trace records the
entry the closure selected on each attempt. -/
def runRetryAux {α : Type} (pool : List EthereumNetworkAdapter)
    (behave : Nat → EthereumNetworkAdapter → AttemptResult α) :
    Nat → Nat → List EthereumNetworkAdapter × RunOutcome α
  | _, 0 => ([], RunOutcome.failed TimeoutErr.elapsed)
  | i, fuel + 1 =>
    match firstAdapterSelection pool with
    | none => ([], RunOutcome.panicked)
    | some e =>
      match behave i e with
      | AttemptResult.ok a => ([e], RunOutcome.ok a)
      | AttemptResult.err m =>
          if fuel = 0 then ([e], RunOutcome.failed (TimeoutErr.inner m))
          else
            let r := runRetryAux pool behave (i + 1) fuel
            (e :: r.1, r.2)
      | AttemptResult.timedOut =>
          if fuel = 0 then ([e], RunOutcome.failed TimeoutErr.elapsed)
          else
            let r := runRetryAux pool behave (i + 1) fuel
            (e :: r.1, r.2)

/-- Run an operation under the retry executor with attempt limit `limit`
(the executor always performs the first attempt, so the attempt budget is
`max limit 1`). -/
def runRetry {α : Type} (pool : List EthereumNetworkAdapter) (limit : Nat)
    (behave : Nat → EthereumNetworkAdapter → AttemptResult α) :
    List EthereumNetworkAdapter × RunOutcome α :=
  runRetryAux pool behave 0 (max limit 1)

lemma runRetryAux_trace_head {α : Type} (pool : List EthereumNetworkAdapter)
    (behave : Nat → EthereumNetworkAdapter → AttemptResult α) (fuel i : Nat) :
    ((runRetryAux pool behave i fuel).1.all (fun e => pool.head? = some e)) = true := by
  induction fuel generalizing i with
  | zero => rfl
  | succ fuel ih =>
      rw [runRetryAux]
      rcases hh : firstAdapterSelection pool with _ | e
      · rfl
      · have hph : pool.head? = some e := hh
        cases hb : behave i e with
        | ok a => simp [hb, hph]
        | err m =>
            by_cases hz : fuel = 0
            · simp [hb, hz, hph]
            · simp [hb, hz, hph]
              intro x hx
              have h2 := List.all_eq_true.mp (ih (i + 1)) x hx
              simpa [hph] using h2
        | timedOut =>
            by_cases hz : fuel = 0
            · simp [hb, hz, hph]
            · simp [hb, hz, hph]
              intro x hx
              have h2 := List.all_eq_true.mp (ih (i + 1)) x hx
              simpa [hph] using h2

lemma runRetryAux_no_panic {α : Type} (pool : List EthereumNetworkAdapter)
    (behave : Nat → EthereumNetworkAdapter → AttemptResult α) (fuel i : Nat)
    (hne : pool ≠ []) :
    (runRetryAux pool behave i fuel).2 ≠ RunOutcome.panicked := by
  induction fuel generalizing i with
  | zero => simp [runRetryAux]
  | succ fuel ih =>
      rw [runRetryAux]
      rcases hh : firstAdapterSelection pool with _ | e
      · exact absurd (List.head?_eq_none_iff.mp hh) hne
      · cases hb : behave i e with
        | ok a => simp [hb]
        | err m =>
            by_cases hz : fuel = 0
            · simp [hb, hz]
            · simp [hb, hz, ih (i + 1)]
        | timedOut =>
            by_cases hz : fuel = 0
            · simp [hb, hz]
            · simp [hb, hz, ih (i + 1)]

/-- C6: on every attempt — the first and all retries — the operation
closure selects the first pool entry; no attempt selects a different one,
and on a nonempty pool at least one attempt is made. -/
theorem retry_always_first_entry :
    ∀ (α : Type) (pool : List EthereumNetworkAdapter) (limit : Nat)
      (behave : Nat → EthereumNetworkAdapter → AttemptResult α),
      ((runRetry pool limit behave).1.all (fun e => pool.head? = some e)) = true ∧
      (pool ≠ [] → (runRetry pool limit behave).1 ≠ []) := by
  intro α pool limit behave
  constructor
  · exact runRetryAux_trace_head pool behave (max limit 1) 0
  · intro hne
    rcases pool with _ | ⟨a, rest⟩
    · exact absurd rfl hne
    · unfold runRetry
      rw [show max limit 1 = (max limit 1 - 1) + 1 from
        (Nat.succ_pred_eq_of_pos (Nat.lt_of_lt_of_le Nat.zero_lt_one (Nat.le_max_right limit 1))).symm]
      rw [runRetryAux]
      cases hb : behave 0 a with
      | ok x => simp [firstAdapterSelection, hb]
      | err m =>
          by_cases hz : max limit 1 - 1 = 0
          · simp [hz, firstAdapterSelection, hb]
          · simp [hz, firstAdapterSelection, hb]
      | timedOut =>
          by_cases hz : max limit 1 - 1 = 0
          · simp [hz, firstAdapterSelection, hb]
          · simp [hz, firstAdapterSelection, hb]

theorem retry_always_first_entry_witness :
    ((runRetry [⟨⟨false, false⟩, 0⟩, ⟨⟨true, true⟩, 1⟩] 2
        (fun _ _ => AttemptResult.timedOut (α := Nat))).1.all
      (fun e => ([⟨⟨false, false⟩, 0⟩, ⟨⟨true, true⟩, 1⟩] :
        List EthereumNetworkAdapter).head? = some e)) = true ∧
    (runRetry [⟨⟨false, false⟩, 0⟩, ⟨⟨true, true⟩, 1⟩] 2
        (fun _ _ => AttemptResult.timedOut (α := Nat))).1 ≠ [] :=
  ⟨(retry_always_first_entry Nat [⟨⟨false, false⟩, 0⟩, ⟨⟨true, true⟩, 1⟩] 2
      (fun _ _ => AttemptResult.timedOut)).1,
   (retry_always_first_entry Nat [⟨⟨false, false⟩, 0⟩, ⟨⟨true, true⟩, 1⟩] 2
      (fun _ _ => AttemptResult.timedOut)).2 (by simp)⟩

/-- C7 counterexample: a forwarded operation invoked on a pool with zero
entries panics (the closure's `unwrap` of `None`) instead of returning an
error value. -/
theorem empty_pool_panics :
    (runRetry ([] : List EthereumNetworkAdapter) 0
        (fun _ _ => AttemptResult.timedOut (α := Nat))).2 = RunOutcome.panicked := rfl

/-- C7 amended: on a pool with at least one entry, no failure of the
forwarded operation is a panic — every attempt failure is surfaced to the
caller as an error value (inner error or elapsed timeout). -/
theorem nonempty_pool_never_panics :
    ∀ (α : Type) (pool : List EthereumNetworkAdapter) (limit : Nat)
      (behave : Nat → EthereumNetworkAdapter → AttemptResult α),
      pool ≠ [] → (runRetry pool limit behave).2 ≠ RunOutcome.panicked := by
  intro α pool limit behave hne
  exact runRetryAux_no_panic pool behave (max limit 1) 0 hne

theorem nonempty_pool_never_panics_witness :
    (runRetry [⟨⟨true, false⟩, 4⟩] 1
        (fun _ _ => AttemptResult.err (α := Nat) "connection refused")).2 ≠
      RunOutcome.panicked :=
  nonempty_pool_never_panics Nat [⟨⟨true, false⟩, 4⟩] 1
    (fun _ _ => AttemptResult.err "connection refused") (by simp)
